import Mathlib

/-!
Shallow embedding of the limitless-convex-db core (the `lifelog` package:
`src/lifelog/core/schemas.py`, `src/lifelog/core/data_manager.py`,
`src/lifelog/core/api_client.py`) together with theorems settling the
frozen claims about the natural-language specification.

Conventions used throughout the embedding:
* JSON-compatible Python values (dicts, lists, strings, ints, None) are
  modelled by the inductive type `J`; Python dicts are association lists
  in insertion order (Python 3.7+ dicts preserve insertion order, and
  assignment to an existing key keeps its position).
* `datetime` values are integers counting microseconds since the epoch
  (the resolution of Python's `datetime`/`timedelta`);
  `timedelta(minutes=m)` is `m * 60000000` microseconds.
* ISO-format time strings are kept abstract: every operation that parses
  one takes a `parseTime : String -> Option Int` argument standing for
  `datetime.fromisoformat`, with `none` covering `ValueError`/`TypeError`.
* Fallible Python code (uncaught `KeyError` on `data["k"]`, exceptions
  from remote calls) is modelled with `Option`/`Except`.
* The two remote collaborators (Convex queries/mutations, the lifelog
  HTTP API) are modelled by their observable behaviour, passed in as
  values: `Except String` results for the Convex calls, a list of
  response pages for the HTTP pagination loop.
-/

namespace Schemas

/-- JSON-compatible values: strings, integers, null, arrays and
insertion-ordered objects.  This is the wire/storage representation that
`lifelog_to_dict` and friends produce (src/lifelog/core/schemas.py). -/
inductive J where
  | s (v : String)
  | i (v : Int)
  | null
  | arr (xs : List J)
  | obj (kvs : List (String × J))

/-- Python dict lookup `d.get(k)` on an insertion-ordered object: the
objects built by the embedding have unique keys, so first-match lookup
agrees with Python dict semantics. -/
def lookup (kvs : List (String × J)) (k : String) : Option J :=
  (kvs.find? (fun p => p.1 = k)).map Prod.snd

/-- One optional entry of a dict under construction: models the Python
pattern `if cond: result[k] = v` as a zero-or-one element segment. -/
def optField (k : String) (v : Option J) : List (String × J) :=
  match v with
  | some j => [(k, j)]
  | none => []

/-- `ContentItem` dataclass (src/lifelog/core/schemas.py lines 5-15).
`children` is the recursive `Optional[List[ContentItem]]` field; its
Python default is the empty list `[]`, which is distinct from `None`. -/
inductive ContentItem where
  | mk (type : String) (content : String)
       (start_time : Option String) (end_time : Option String)
       (start_offset_ms : Option Int) (end_offset_ms : Option Int)
       (children : Option (List ContentItem))
       (speaker_name : Option String) (speaker_identifier : Option String)

def ContentItem.type : ContentItem → String
  | .mk t _ _ _ _ _ _ _ _ => t

def ContentItem.content : ContentItem → String
  | .mk _ c _ _ _ _ _ _ _ => c

def ContentItem.children : ContentItem → Option (List ContentItem)
  | .mk _ _ _ _ _ _ ch _ _ => ch

/-- `Lifelog` dataclass (src/lifelog/core/schemas.py lines 17-23). -/
structure Lifelog where
  id : String
  title : String
  markdown : String
  contents : List ContentItem
  timestamp : Option Int

mutual

/-- The wire value of the `children` field: `if item.children:` emits the
recursively converted list only when the field is truthy (a non-empty
list); `None` and `[]` are both falsy and produce no entry. -/
def childrenWire : Option (List ContentItem) → Option J
  | some (x :: xs) => some (.arr (content_items_to_dict (x :: xs)))
  | _ => none

/-- `content_item_to_dict` (src/lifelog/core/schemas.py lines 44-66):
starts from `{type, content}` and conditionally inserts each optional
field. -/
def content_item_to_dict : ContentItem → J
  | .mk ty c st et so eo ch sn si =>
    .obj ([("type", .s ty), ("content", .s c)]
      ++ optField "startTime" (st.map .s)
      ++ optField "endTime" (et.map .s)
      ++ optField "startOffsetMs" (so.map .i)
      ++ optField "endOffsetMs" (eo.map .i)
      ++ optField "children" (childrenWire ch)
      ++ optField "speakerName" (sn.map .s)
      ++ optField "speakerIdentifier" (si.map .s))

/-- The list comprehension `[content_item_to_dict(child) for child in ...]`. -/
def content_items_to_dict : List ContentItem → List J
  | [] => []
  | x :: xs => content_item_to_dict x :: content_items_to_dict xs

end

/-- An optional integer on the wire: Python serialises `None` as `null`. -/
def tsWire : Option Int → J
  | some n => .i n
  | none => .null

/-- `lifelog_to_dict` (src/lifelog/core/schemas.py lines 34-42): all five
keys are always emitted; in particular `timestamp` is present even when
the field is unset (Python serialises it as `null`). -/
def lifelog_to_dict (l : Lifelog) : J :=
  .obj [("id", .s l.id), ("title", .s l.title), ("markdown", .s l.markdown),
        ("contents", .arr (content_items_to_dict l.contents)),
        ("timestamp", tsWire l.timestamp)]

/-- Reading an optional string field with `data.get(k)`: absent key or a
`null` value gives the unset field; a value of a non-string shape is
rejected (the typed dataclass field cannot hold it). -/
def getStr (kvs : List (String × J)) (k : String) : Option (Option String) :=
  match lookup kvs k with
  | none => some none
  | some .null => some none
  | some (.s v) => some (some v)
  | some _ => none

/-- Reading an optional integer field with `data.get(k)`. -/
def getInt (kvs : List (String × J)) (k : String) : Option (Option Int) :=
  match lookup kvs k with
  | none => some none
  | some .null => some none
  | some (.i v) => some (some v)
  | some _ => none

/-- A value found by `lookup` is a strict subterm of the enclosing object. -/
theorem lookup_sizeOf {kvs : List (String × J)} {k : String} {j : J}
    (h : lookup kvs k = some j) : sizeOf j < sizeOf (J.obj kvs) := by
  unfold lookup at h
  match hf : kvs.find? (fun p => p.1 = k) with
  | none => rw [hf] at h; cases h
  | some p =>
    rw [hf] at h
    have hm : p ∈ kvs := List.mem_of_find?_eq_some hf
    have h1 : sizeOf p < sizeOf kvs := List.sizeOf_lt_of_mem hm
    have h2 : j = p.2 := by cases h; rfl
    subst h2
    cases p with
    | mk a b => simp at h1 ⊢; omega

mutual

/-- Interpretation of the value found at key `"children"`, mirroring
`if "children" in data and data["children"]:` followed by the recursive
list comprehension — a falsy value (`None`, `[]`, `""`, `0`, `{}`)
yields `children = None`, a non-empty array is parsed recursively, and
any other truthy value makes the iteration raise. -/
def childrenValue : J → Option (Option (List ContentItem))
  | .arr (x :: xs) =>
    match dict_to_content_items (x :: xs) with
    | some cs => some (some cs)
    | none => none
  | .arr [] => some none
  | .null => some none
  | .s v => if v = "" then some none else none
  | .i n => if n = 0 then some none else none
  | .obj [] => some none
  | .obj (_ :: _) => none

/-- First-occurrence search for the `"children"` key (agrees with
`lookup` on the unique-key objects the embedding builds). -/
def childrenOfKvs : List (String × J) → Option (Option (List ContentItem))
  | [] => some none
  | (k, v) :: rest =>
    if k = "children" then childrenValue v else childrenOfKvs rest

/-- `dict_to_content_item` (src/lifelog/core/schemas.py lines 78-94).
`data["type"]`/`data["content"]` are mandatory (a missing key raises, so
the result is `none`); every other field is read with `.get`. -/
def dict_to_content_item : J → Option ContentItem
  | .obj kvs =>
    match lookup kvs "type", lookup kvs "content" with
    | some (.s ty), some (.s c) =>
      match getStr kvs "startTime", getStr kvs "endTime",
            getInt kvs "startOffsetMs", getInt kvs "endOffsetMs",
            getStr kvs "speakerName", getStr kvs "speakerIdentifier" with
      | some st, some et, some so, some eo, some sn, some si =>
        match childrenOfKvs kvs with
        | some ch => some (.mk ty c st et so eo ch sn si)
        | none => none
      | _, _, _, _, _, _ => none
    | _, _ => none
  | _ => none

/-- The list comprehension `[dict_to_content_item(child) for child in ...]`;
an exception from any element propagates. -/
def dict_to_content_items : List J → Option (List ContentItem)
  | [] => some []
  | x :: xs =>
    match dict_to_content_item x, dict_to_content_items xs with
    | some c, some cs => some (c :: cs)
    | _, _ => none

end

/-- The entry list of an object value (empty for non-objects). -/
def J.fields : J → List (String × J)
  | .obj kvs => kvs
  | _ => []

/-- `dict_to_lifelog` (src/lifelog/core/schemas.py lines 68-76):
`id`, `title`, `markdown`, `contents` are mandatory subscripts,
`timestamp` is read with `.get`. -/
def dict_to_lifelog : J → Option Lifelog
  | .obj kvs =>
    match lookup kvs "id", lookup kvs "title", lookup kvs "markdown",
          lookup kvs "contents" with
    | some (.s i), some (.s t), some (.s m), some (.arr cs) =>
      match dict_to_content_items cs, getInt kvs "timestamp" with
      | some contents, some ts => some ⟨i, t, m, contents, ts⟩
      | _, _ => none
    | _, _, _, _ => none
  | _ => none

mutual

/-- True when no content item of the tree carries a present-but-empty
children list (`children == []`), the one configuration whose wire form
loses the distinction with `children == None`. -/
def childrenOk : ContentItem → Bool
  | .mk _ _ _ _ _ _ ch _ _ =>
    match ch with
    | none => true
    | some [] => false
    | some (x :: xs) => childrenOkList (x :: xs)

/-- `childrenOk` on every item of a list. -/
def childrenOkList : List ContentItem → Bool
  | [] => true
  | x :: xs => childrenOk x && childrenOkList xs

end

theorem lookup_cons (k k2 : String) (v : J) (rest : List (String × J)) :
    lookup ((k, v) :: rest) k2 = if k = k2 then some v else lookup rest k2 := by
  by_cases h : k = k2 <;> simp [lookup, List.find?_cons, h]

theorem lookup_optField_self (k : String) (v : Option J) (rest : List (String × J)) :
    lookup (optField k v ++ rest) k =
      (match v with | some j => some j | none => lookup rest k) := by
  cases v <;> simp [optField, lookup_cons]

theorem lookup_optField_ne (k k2 : String) (h : ¬ k = k2) (v : Option J)
    (rest : List (String × J)) :
    lookup (optField k v ++ rest) k2 = lookup rest k2 := by
  cases v <;> simp [optField, lookup_cons, h]

theorem lookup_optField_last_self (k : String) (v : Option J) :
    lookup (optField k v) k = (match v with | some j => some j | none => none) := by
  cases v <;> simp [optField, lookup_cons, lookup]

theorem lookup_optField_last_ne (k k2 : String) (h : ¬ k = k2) (v : Option J) :
    lookup (optField k v) k2 = none := by
  cases v <;> simp [optField, lookup_cons, lookup, h]

theorem childrenOfKvs_cons_ne (k : String) (h : ¬ k = "children") (v : J)
    (rest : List (String × J)) :
    childrenOfKvs ((k, v) :: rest) = childrenOfKvs rest := by
  simp [childrenOfKvs, h]

theorem childrenOfKvs_optField_ne (k : String) (h : ¬ k = "children") (v : Option J)
    (rest : List (String × J)) :
    childrenOfKvs (optField k v ++ rest) = childrenOfKvs rest := by
  cases v <;> simp [optField, childrenOfKvs, h]

theorem childrenOfKvs_optField_self (v : Option J) (rest : List (String × J)) :
    childrenOfKvs (optField "children" v ++ rest) =
      (match v with | some j => childrenValue j | none => childrenOfKvs rest) := by
  cases v <;> simp [optField, childrenOfKvs]

theorem childrenOfKvs_nil : childrenOfKvs [] = some none := rfl

theorem childrenOfKvs_optField_last_ne (k : String) (h : ¬ k = "children")
    (v : Option J) : childrenOfKvs (optField k v) = some none := by
  cases v <;> simp [optField, childrenOfKvs, h]

theorem fields_obj (kvs : List (String × J)) : J.fields (.obj kvs) = kvs := rfl

theorem childrenWire_none : childrenWire none = none := rfl

theorem childrenWire_nil : childrenWire (some []) = none := rfl

theorem childrenWire_cons (x : ContentItem) (xs : List ContentItem) :
    childrenWire (some (x :: xs)) = some (.arr (content_items_to_dict (x :: xs))) := rfl

theorem content_item_to_dict_def (ty c : String) (st et : Option String)
    (so eo : Option Int) (ch : Option (List ContentItem)) (sn si : Option String) :
    content_item_to_dict (.mk ty c st et so eo ch sn si) =
      .obj ([("type", .s ty), ("content", .s c)]
        ++ optField "startTime" (st.map .s)
        ++ optField "endTime" (et.map .s)
        ++ optField "startOffsetMs" (so.map .i)
        ++ optField "endOffsetMs" (eo.map .i)
        ++ optField "children" (childrenWire ch)
        ++ optField "speakerName" (sn.map .s)
        ++ optField "speakerIdentifier" (si.map .s)) := rfl

theorem toDict_type (ty c : String) (st et : Option String) (so eo : Option Int)
    (ch : Option (List ContentItem)) (sn si : Option String) :
    lookup (J.fields (content_item_to_dict (.mk ty c st et so eo ch sn si))) "type"
      = some (.s ty) := by
  rw [content_item_to_dict_def, fields_obj]
  simp [lookup_cons]

theorem toDict_content (ty c : String) (st et : Option String) (so eo : Option Int)
    (ch : Option (List ContentItem)) (sn si : Option String) :
    lookup (J.fields (content_item_to_dict (.mk ty c st et so eo ch sn si))) "content"
      = some (.s c) := by
  rw [content_item_to_dict_def, fields_obj]
  simp [lookup_cons]

theorem toDict_startTime (ty c : String) (st et : Option String) (so eo : Option Int)
    (ch : Option (List ContentItem)) (sn si : Option String) :
    lookup (J.fields (content_item_to_dict (.mk ty c st et so eo ch sn si))) "startTime"
      = st.map J.s := by
  rw [content_item_to_dict_def, fields_obj]
  cases st <;>
    simp [lookup_cons, lookup_optField_self, lookup_optField_ne, lookup_optField_last_ne]

theorem toDict_endTime (ty c : String) (st et : Option String) (so eo : Option Int)
    (ch : Option (List ContentItem)) (sn si : Option String) :
    lookup (J.fields (content_item_to_dict (.mk ty c st et so eo ch sn si))) "endTime"
      = et.map J.s := by
  rw [content_item_to_dict_def, fields_obj]
  cases et <;>
    simp [lookup_cons, lookup_optField_self, lookup_optField_ne, lookup_optField_last_ne]

theorem toDict_startOffsetMs (ty c : String) (st et : Option String) (so eo : Option Int)
    (ch : Option (List ContentItem)) (sn si : Option String) :
    lookup (J.fields (content_item_to_dict (.mk ty c st et so eo ch sn si))) "startOffsetMs"
      = so.map J.i := by
  rw [content_item_to_dict_def, fields_obj]
  cases so <;>
    simp [lookup_cons, lookup_optField_self, lookup_optField_ne, lookup_optField_last_ne]

theorem toDict_endOffsetMs (ty c : String) (st et : Option String) (so eo : Option Int)
    (ch : Option (List ContentItem)) (sn si : Option String) :
    lookup (J.fields (content_item_to_dict (.mk ty c st et so eo ch sn si))) "endOffsetMs"
      = eo.map J.i := by
  rw [content_item_to_dict_def, fields_obj]
  cases eo <;>
    simp [lookup_cons, lookup_optField_self, lookup_optField_ne, lookup_optField_last_ne]

theorem toDict_speakerName (ty c : String) (st et : Option String) (so eo : Option Int)
    (ch : Option (List ContentItem)) (sn si : Option String) :
    lookup (J.fields (content_item_to_dict (.mk ty c st et so eo ch sn si))) "speakerName"
      = sn.map J.s := by
  rw [content_item_to_dict_def, fields_obj]
  cases sn <;>
    simp [lookup_cons, lookup_optField_self, lookup_optField_ne, lookup_optField_last_ne]

theorem toDict_speakerIdentifier (ty c : String) (st et : Option String)
    (so eo : Option Int) (ch : Option (List ContentItem)) (sn si : Option String) :
    lookup (J.fields (content_item_to_dict (.mk ty c st et so eo ch sn si)))
      "speakerIdentifier" = si.map J.s := by
  rw [content_item_to_dict_def, fields_obj]
  cases si <;>
    simp [lookup_cons, lookup_optField_self, lookup_optField_ne, lookup_optField_last_ne,
      lookup_optField_last_self]

theorem toDict_children_lookup (ty c : String) (st et : Option String)
    (so eo : Option Int) (ch : Option (List ContentItem)) (sn si : Option String) :
    lookup (J.fields (content_item_to_dict (.mk ty c st et so eo ch sn si))) "children"
      = childrenWire ch := by
  rw [content_item_to_dict_def, fields_obj]
  match ch with
  | none =>
    simp [lookup_cons, lookup_optField_self, lookup_optField_ne, lookup_optField_last_ne,
      childrenWire_none]
  | some [] =>
    simp [lookup_cons, lookup_optField_self, lookup_optField_ne, lookup_optField_last_ne,
      childrenWire_nil]
  | some (x :: xs) =>
    simp [lookup_cons, lookup_optField_self, lookup_optField_ne, lookup_optField_last_ne,
      childrenWire_cons]

theorem toDict_childrenOfKvs (ty c : String) (st et : Option String)
    (so eo : Option Int) (ch : Option (List ContentItem)) (sn si : Option String) :
    childrenOfKvs (J.fields (content_item_to_dict (.mk ty c st et so eo ch sn si)))
      = (match ch with
         | some (x :: xs) => childrenValue (.arr (content_items_to_dict (x :: xs)))
         | _ => some none) := by
  rw [content_item_to_dict_def, fields_obj]
  match ch with
  | none =>
    simp [childrenOfKvs_cons_ne, childrenOfKvs_optField_ne, childrenOfKvs_optField_self,
      childrenOfKvs_optField_last_ne, childrenOfKvs_nil, childrenWire_none]
  | some [] =>
    simp [childrenOfKvs_cons_ne, childrenOfKvs_optField_ne, childrenOfKvs_optField_self,
      childrenOfKvs_optField_last_ne, childrenOfKvs_nil, childrenWire_nil]
  | some (x :: xs) =>
    simp [childrenOfKvs_cons_ne, childrenOfKvs_optField_ne, childrenOfKvs_optField_self,
      childrenWire_cons]

theorem toDict_getStr_startTime (ty c : String) (st et : Option String)
    (so eo : Option Int) (ch : Option (List ContentItem)) (sn si : Option String) :
    getStr (J.fields (content_item_to_dict (.mk ty c st et so eo ch sn si))) "startTime"
      = some st := by
  have hx := toDict_startTime ty c st et so eo ch sn si
  cases st <;> simp [getStr, hx] at hx ⊢ <;> simp [hx]

theorem toDict_getStr_endTime (ty c : String) (st et : Option String)
    (so eo : Option Int) (ch : Option (List ContentItem)) (sn si : Option String) :
    getStr (J.fields (content_item_to_dict (.mk ty c st et so eo ch sn si))) "endTime"
      = some et := by
  have hx := toDict_endTime ty c st et so eo ch sn si
  cases et <;> simp [getStr, hx] at hx ⊢ <;> simp [hx]

theorem toDict_getInt_startOffsetMs (ty c : String) (st et : Option String)
    (so eo : Option Int) (ch : Option (List ContentItem)) (sn si : Option String) :
    getInt (J.fields (content_item_to_dict (.mk ty c st et so eo ch sn si))) "startOffsetMs"
      = some so := by
  have hx := toDict_startOffsetMs ty c st et so eo ch sn si
  cases so <;> simp [getInt, hx] at hx ⊢ <;> simp [hx]

theorem toDict_getInt_endOffsetMs (ty c : String) (st et : Option String)
    (so eo : Option Int) (ch : Option (List ContentItem)) (sn si : Option String) :
    getInt (J.fields (content_item_to_dict (.mk ty c st et so eo ch sn si))) "endOffsetMs"
      = some eo := by
  have hx := toDict_endOffsetMs ty c st et so eo ch sn si
  cases eo <;> simp [getInt, hx] at hx ⊢ <;> simp [hx]

theorem toDict_getStr_speakerName (ty c : String) (st et : Option String)
    (so eo : Option Int) (ch : Option (List ContentItem)) (sn si : Option String) :
    getStr (J.fields (content_item_to_dict (.mk ty c st et so eo ch sn si))) "speakerName"
      = some sn := by
  have hx := toDict_speakerName ty c st et so eo ch sn si
  cases sn <;> simp [getStr, hx] at hx ⊢ <;> simp [hx]

theorem toDict_getStr_speakerIdentifier (ty c : String) (st et : Option String)
    (so eo : Option Int) (ch : Option (List ContentItem)) (sn si : Option String) :
    getStr (J.fields (content_item_to_dict (.mk ty c st et so eo ch sn si)))
      "speakerIdentifier" = some si := by
  have hx := toDict_speakerIdentifier ty c st et so eo ch sn si
  cases si <;> simp [getStr, hx] at hx ⊢ <;> simp [hx]

mutual

/-- Parsing the wire form of a content item recovers it exactly, provided
no item in its tree has a present-but-empty children list. -/
theorem rt_item : ∀ (it : ContentItem), childrenOk it = true →
    dict_to_content_item (content_item_to_dict it) = some it
  | .mk ty c st et so eo none sn si, _ => by
    have hty := toDict_type ty c st et so eo none sn si
    have hco := toDict_content ty c st et so eo none sn si
    have hch := toDict_childrenOfKvs ty c st et so eo none sn si
    have h1 := toDict_getStr_startTime ty c st et so eo none sn si
    have h2 := toDict_getStr_endTime ty c st et so eo none sn si
    have h3 := toDict_getInt_startOffsetMs ty c st et so eo none sn si
    have h4 := toDict_getInt_endOffsetMs ty c st et so eo none sn si
    have h5 := toDict_getStr_speakerName ty c st et so eo none sn si
    have h6 := toDict_getStr_speakerIdentifier ty c st et so eo none sn si
    rw [content_item_to_dict_def, fields_obj] at hty hco hch h1 h2 h3 h4 h5 h6
    simp only [List.append_assoc, List.cons_append, List.nil_append] at hty hco hch h1 h2 h3 h4 h5 h6
    rw [content_item_to_dict_def]
    simp only [dict_to_content_item, fields_obj] at *
    simp [hty, hco, hch, h1, h2, h3, h4, h5, h6]
  | .mk ty c st et so eo (some []) sn si, h => by
    simp [childrenOk] at h
  | .mk ty c st et so eo (some (x :: xs)) sn si, h => by
    have hrec : dict_to_content_items (content_items_to_dict (x :: xs)) = some (x :: xs) := by
      apply rt_items
      simpa [childrenOk] using h
    have hty := toDict_type ty c st et so eo (some (x :: xs)) sn si
    have hco := toDict_content ty c st et so eo (some (x :: xs)) sn si
    have hch := toDict_childrenOfKvs ty c st et so eo (some (x :: xs)) sn si
    have h1 := toDict_getStr_startTime ty c st et so eo (some (x :: xs)) sn si
    have h2 := toDict_getStr_endTime ty c st et so eo (some (x :: xs)) sn si
    have h3 := toDict_getInt_startOffsetMs ty c st et so eo (some (x :: xs)) sn si
    have h4 := toDict_getInt_endOffsetMs ty c st et so eo (some (x :: xs)) sn si
    have h5 := toDict_getStr_speakerName ty c st et so eo (some (x :: xs)) sn si
    have h6 := toDict_getStr_speakerIdentifier ty c st et so eo (some (x :: xs)) sn si
    rw [content_item_to_dict_def, fields_obj] at hty hco hch h1 h2 h3 h4 h5 h6
    simp only [List.append_assoc, List.cons_append, List.nil_append] at hty hco hch h1 h2 h3 h4 h5 h6
    rw [content_item_to_dict_def]
    have e1 : content_items_to_dict (x :: xs)
        = content_item_to_dict x :: content_items_to_dict xs := rfl
    rw [e1] at hrec hch
    simp only [dict_to_content_item, fields_obj] at *
    simp [hty, hco, h1, h2, h3, h4, h5, h6, hch, childrenValue, hrec]

/-- List version of `rt_item`. -/
theorem rt_items : ∀ (l : List ContentItem), childrenOkList l = true →
    dict_to_content_items (content_items_to_dict l) = some l
  | [], _ => rfl
  | x :: xs, h => by
    have hx : childrenOk x = true := by
      simp [childrenOkList] at h
      exact h.1
    have hxs : childrenOkList xs = true := by
      simp [childrenOkList] at h
      exact h.2
    have r1 := rt_item x hx
    have r2 := rt_items xs hxs
    have e1 : content_items_to_dict (x :: xs)
        = content_item_to_dict x :: content_items_to_dict xs := rfl
    rw [e1]
    simp only [dict_to_content_items, r1, r2]

end

theorem lifelog_to_dict_def (l : Lifelog) :
    lifelog_to_dict l =
      .obj [("id", .s l.id), ("title", .s l.title), ("markdown", .s l.markdown),
            ("contents", .arr (content_items_to_dict l.contents)),
            ("timestamp", tsWire l.timestamp)] := rfl

/-- Parsing the wire form of a lifelog recovers it exactly, provided no
content item carries a present-but-empty children list. -/
theorem rt_lifelog (l : Lifelog) (h : childrenOkList l.contents = true) :
    dict_to_lifelog (lifelog_to_dict l) = some l := by
  obtain ⟨i, t, m, cs, ts⟩ := l
  have hr : dict_to_content_items (content_items_to_dict cs) = some cs := rt_items cs h
  rw [lifelog_to_dict_def]
  cases ts <;> simp [dict_to_lifelog, lookup_cons, getInt, tsWire, hr]

/-- The record used to exhibit the children round-trip gap: its single
content item has the dataclass default `children == []`. -/
def c2Rec : Lifelog :=
  ⟨"a", "t", "m", [.mk "heading1" "c" none none none none (some []) none none], none⟩

/-- What the wire form of `c2Rec` parses back to: `children == None`. -/
def c2RecParsed : Lifelog :=
  ⟨"a", "t", "m", [.mk "heading1" "c" none none none none none none none], none⟩

/-- A record exercising nested children, optional fields and a timestamp. -/
def c2Good : Lifelog :=
  ⟨"a", "t", "m",
   [.mk "heading1" "c" (some "x") none (some 3) none
      (some [.mk "blockquote" "d" none none none none none (some "sp") (some "user")])
      none none],
   some 17⟩

/-- C2, counterexample.  The claim fails as stated: a record whose content
item has the dataclass-default `children == []` round-trips to
`children == None`, which is a different value under dataclass equality,
so `dict_to_lifelog (lifelog_to_dict r) == r` does not hold for it; and
the wire form emits `"timestamp": null` for an unset timestamp instead of
omitting the key. -/
theorem c2_counterexample :
    dict_to_lifelog (lifelog_to_dict c2Rec) = some c2RecParsed
    ∧ c2RecParsed ≠ c2Rec
    ∧ lookup (J.fields (lifelog_to_dict c2Rec)) "timestamp" = some .null := by
  refine ⟨?_, ?_, ?_⟩
  · simp [c2Rec, c2RecParsed, dict_to_lifelog, lifelog_to_dict, content_items_to_dict,
      content_item_to_dict, dict_to_content_items, dict_to_content_item, childrenOfKvs,
      childrenValue, childrenWire, tsWire, lookup, getStr, getInt, optField, List.find?]
  · intro h
    simp [c2Rec, c2RecParsed] at h
  · rfl

/-- C2, amended.  For every record in which no content item carries a
present-but-empty children list, converting to the wire form and back is
the identity; every unset optional field of a content item is omitted
from the wire form (absent key, not null), and an empty-or-absent
children list round-trips to the absent value `None`; the record-level
`timestamp`, in contrast, is always emitted, as `null` when unset. -/
theorem c2_round_trip :
    (∀ l : Lifelog, childrenOkList l.contents = true →
        dict_to_lifelog (lifelog_to_dict l) = some l)
    ∧ (∀ ty c et so eo ch sn si,
        lookup (J.fields (content_item_to_dict (.mk ty c none et so eo ch sn si)))
          "startTime" = none)
    ∧ (∀ ty c st so eo ch sn si,
        lookup (J.fields (content_item_to_dict (.mk ty c st none so eo ch sn si)))
          "endTime" = none)
    ∧ (∀ ty c st et eo ch sn si,
        lookup (J.fields (content_item_to_dict (.mk ty c st et none eo ch sn si)))
          "startOffsetMs" = none)
    ∧ (∀ ty c st et so ch sn si,
        lookup (J.fields (content_item_to_dict (.mk ty c st et so none ch sn si)))
          "endOffsetMs" = none)
    ∧ (∀ ty c st et so eo ch si,
        lookup (J.fields (content_item_to_dict (.mk ty c st et so eo ch none si)))
          "speakerName" = none)
    ∧ (∀ ty c st et so eo ch sn,
        lookup (J.fields (content_item_to_dict (.mk ty c st et so eo ch sn none)))
          "speakerIdentifier" = none)
    ∧ (∀ ty c st et so eo sn si,
        lookup (J.fields (content_item_to_dict (.mk ty c st et so eo none sn si)))
          "children" = none)
    ∧ (∀ ty c st et so eo sn si,
        lookup (J.fields (content_item_to_dict (.mk ty c st et so eo (some []) sn si)))
          "children" = none)
    ∧ (∀ l : Lifelog, l.timestamp = none →
        lookup (J.fields (lifelog_to_dict l)) "timestamp" = some .null) := by
  refine ⟨rt_lifelog, ?_, ?_, ?_, ?_, ?_, ?_, ?_, ?_, ?_⟩
  · intro ty c et so eo ch sn si
    have h := toDict_startTime ty c none et so eo ch sn si
    simpa using h
  · intro ty c st so eo ch sn si
    have h := toDict_endTime ty c st none so eo ch sn si
    simpa using h
  · intro ty c st et eo ch sn si
    have h := toDict_startOffsetMs ty c st et none eo ch sn si
    simpa using h
  · intro ty c st et so ch sn si
    have h := toDict_endOffsetMs ty c st et so none ch sn si
    simpa using h
  · intro ty c st et so eo ch si
    have h := toDict_speakerName ty c st et so eo ch none si
    simpa using h
  · intro ty c st et so eo ch sn
    have h := toDict_speakerIdentifier ty c st et so eo ch sn none
    simpa using h
  · intro ty c st et so eo sn si
    have h := toDict_children_lookup ty c st et so eo none sn si
    simpa [childrenWire_none] using h
  · intro ty c st et so eo sn si
    have h := toDict_children_lookup ty c st et so eo (some []) sn si
    simpa [childrenWire_nil] using h
  · intro l h
    rw [lifelog_to_dict_def, fields_obj]
    simp [lookup_cons, h, tsWire]

/-- C2, witness: the amended round-trip and the emitted-null-timestamp
fact evaluated at concrete records. -/
theorem c2_round_trip_witness :
    dict_to_lifelog (lifelog_to_dict c2Good) = some c2Good
    ∧ lookup (J.fields (lifelog_to_dict c2Rec)) "timestamp" = some .null :=
  ⟨c2_round_trip.1 c2Good (by rfl),
   c2_round_trip.2.2.2.2.2.2.2.2.2 c2Rec (by rfl)⟩

end Schemas

namespace DataManager

open Schemas

/-- The `db["meta"]` dictionary kept by `LifelogDataManager`
(src/lifelog/core/data_manager.py): the richer schema variant with
`source_update_time`, `cloud_update_time`, `total_entries` and `ids`.
(The `LocalMetadata` class itself is imported by data_manager.py but its
declaration is not present under src/; its uses subscript it like the
underlying mapping, which this structure models.)  `Option String` fields
cover both an absent key and a stored `None`. -/
structure LocalMetadata where
  source_update_time : Option String
  cloud_update_time : Option String
  total_entries : Nat
  ids : List String

/-- The Store Document: the `lifelogs` mapping (insertion-ordered dict
from id to serialized record) plus `meta`. -/
structure DB where
  lifelogs : List (String × J)
  meta : LocalMetadata

/-- The externally visible state of one `LifelogDataManager`: the
in-memory cache `self._cache` and the persisted `lifelogs_db.json`
document (`none` models a missing or unparseable file, which
`load_database` treats identically). -/
structure MState where
  cache : Option DB
  disk : Option DB

/-- Python dict assignment `d[k] = v`: overwrites in place (keeping the
key position) or appends a new key at the end. -/
def dictUpsert (m : List (String × J)) (k : String) (v : J) : List (String × J) :=
  if m.any (fun p => p.1 = k) then
    m.map (fun p => if p.1 = k then (k, v) else p)
  else m ++ [(k, v)]

/-- `_create_default_db` (src/lifelog/core/data_manager.py lines 134-144). -/
def defaultDB (nowS : String) : DB :=
  ⟨[], ⟨some nowS, none, 0, []⟩⟩

/-- `load_database` (src/lifelog/core/data_manager.py lines 93-132):
returns the cache when set; otherwise reads the file (a missing or
corrupt file yields the default document), caching the result.  The
default document is not persisted. -/
def load_database (nowS : String) (st : MState) : DB × MState :=
  match st.cache with
  | some db => (db, st)
  | none =>
    match st.disk with
    | some db => (db, ⟨some db, st.disk⟩)
    | none => (defaultDB nowS, ⟨some (defaultDB nowS), st.disk⟩)

/-- `save_lifelogs` (src/lifelog/core/data_manager.py lines 40-91): an
empty list is a no-op; otherwise upsert every record, recompute the
derived meta fields, persist and cache; then opportunistically push the
batch to Convex, updating `cloud_update_time` and re-persisting on
success and merely logging on failure. -/
def save_lifelogs (configured : Bool) (batchAdd : Except String Unit) (nowS : String)
    (logs : List Lifelog) (st : MState) : MState :=
  if logs.isEmpty then st
  else
    let p := load_database nowS st
    let db := p.1
    let newLifelogs := logs.foldl (fun m l => dictUpsert m l.id (lifelog_to_dict l)) db.lifelogs
    let db1 : DB := ⟨newLifelogs,
      ⟨some nowS, db.meta.cloud_update_time, newLifelogs.length, newLifelogs.map Prod.fst⟩⟩
    if configured then
      match batchAdd with
      | .ok _ =>
        let db2 : DB := ⟨newLifelogs,
          ⟨some nowS, some nowS, newLifelogs.length, newLifelogs.map Prod.fst⟩⟩
        ⟨some db2, some db2⟩
      | .error _ => ⟨some db1, some db1⟩
    else ⟨some db1, some db1⟩

/-- `update_local_metadata` (src/lifelog/core/data_manager.py lines
382-416): optionally stamps the two sync times, always recomputes
`total_entries` and `ids` from the mapping, persists and caches. -/
def update_local_metadata (update_source update_cloud : Bool) (nowS : String)
    (st : MState) : MState :=
  let p := load_database nowS st
  let db := p.1
  let src := if update_source then some nowS else db.meta.source_update_time
  let cld := if update_cloud then some nowS else db.meta.cloud_update_time
  let db1 : DB := ⟨db.lifelogs, ⟨src, cld, db.lifelogs.length, db.lifelogs.map Prod.fst⟩⟩
  ⟨some db1, some db1⟩

/-- `is_api_call_needed` (src/lifelog/core/data_manager.py lines 222-255):
due when the store is empty, when `source_update_time` is falsy (absent,
`None` or the empty string), when it fails to parse, or when the data age
strictly exceeds the threshold.  Times are microseconds since the epoch;
`timedelta(minutes=m)` is `m * 60000000`. -/
def is_api_call_needed (parseTime : String → Option Int) (nowT : Int) (nowS : String)
    (st : MState) (thresholdMinutes : Int) : Bool × MState :=
  let p := load_database nowS st
  let db := p.1
  (if db.lifelogs.isEmpty then true
   else
     match db.meta.source_update_time with
     | none => true
     | some s =>
       if s = "" then true
       else
         match parseTime s with
         | none => true
         | some t => decide (nowT - t > thresholdMinutes * 60000000), p.2)

/-- The sort key `x.timestamp if x.timestamp else 0`: a missing (or
zero, which is falsy and maps to the same value) timestamp sorts as 0. -/
def sortKey (l : Lifelog) : Int :=
  match l.timestamp with
  | some t => t
  | none => 0

/-- The list comprehension `[dict_to_lifelog(d) for d in ...]`; an
exception from any element propagates. -/
def parseAll : List J → Option (List Lifelog)
  | [] => some []
  | x :: xs =>
    match dict_to_lifelog x, parseAll xs with
    | some l, some ls => some (l :: ls)
    | _, _ => none

/-- `datetime.fromtimestamp(ts / 1000)` for a millisecond timestamp, as
microseconds since the epoch (timezone offsets are monotone shifts and
do not affect any claimed property). -/
def logDt (ts : Int) : Int := ts * 1000

/-- The date-range filter body: keep the record iff its datetime is not
before `start` and not after `end` (inclusive on both ends). -/
def keepLog (startT endT : Option Int) (ts : Int) : Bool :=
  (match startT with | some s => !(logDt ts < s) | none => true)
  && (match endT with | some e => !(logDt ts > e) | none => true)

/-- `get_lifelogs`, local-storage branch (src/lifelog/core/data_manager.py
lines 183-220): parse all stored records, apply the optional inclusive
date filter (records without a timestamp are skipped when a filter is
given), stable-sort by `sortKey` ascending or descending
(`reverse=(direction == "desc")`), and truncate when a positive limit is
given.  (The Convex branch at lines 172-179 sorts and truncates the
fetched list identically.) -/
def get_lifelogs (db : DB) (limit : Option Int) (desc : Bool)
    (startT endT : Option Int) : Option (List Lifelog) :=
  match parseAll (db.lifelogs.map Prod.snd) with
  | none => none
  | some logs =>
    let logs1 :=
      if startT.isSome || endT.isSome then
        logs.filter (fun l =>
          match l.timestamp with
          | none => false
          | some ts => keepLog startT endT ts)
      else logs
    let sorted :=
      if desc then logs1.mergeSort (fun a b => decide (sortKey b ≤ sortKey a))
      else logs1.mergeSort (fun a b => decide (sortKey a ≤ sortKey b))
    some
      (match limit with
       | some n => if n > 0 then sorted.take n.toNat else sorted
       | none => sorted)

/-- The sync statistics dictionary returned by a full `sync_with_cloud`
run (src/lifelog/core/data_manager.py lines 460-505). -/
structure SyncStats where
  cloud_count : Nat
  local_count_before : Nat
  added_to_local : Nat
  added_to_cloud : Nat
  local_count_after : Nat
deriving DecidableEq

/-- The four distinct result-dictionary shapes `sync_with_cloud` returns. -/
inductive SyncResult where
  | notConfigured
  | skipped (lastSync : String)
  | ok (stats : SyncStats)
  | failed (err : String)
deriving DecidableEq

/-- The `success` entry of the result dictionary. -/
def SyncResult.success : SyncResult → Bool
  | .notConfigured => false
  | .skipped _ => true
  | .ok _ => true
  | .failed _ => false

/-- The `error` entry of the result dictionary, when present. -/
def SyncResult.errorMsg : SyncResult → Option String
  | .notConfigured => some "No Convex client configured"
  | .failed e => some e
  | _ => none

/-- The not-forced short-circuit (src/lifelog/core/data_manager.py lines
434-450): skip, reporting the last sync time, when `cloud_update_time` is
truthy, parses, and lies within the five-minute grace window; a falsy or
unparseable value falls through to a full sync. -/
def skipCheck (parseTime : String → Option Int) (nowT : Int)
    (meta : LocalMetadata) : Option String :=
  match meta.cloud_update_time with
  | none => none
  | some s =>
    if s = "" then none
    else
      match parseTime s with
      | none => none
      | some t => if nowT - t < 5 * 60000000 then some s else none

/-- The cloud-to-local propagation loop (src/lifelog/core/data_manager.py
lines 470-476): for each remote record in order, insert it iff its id is
not yet a key of the (growing, because `local_logs` aliases
`db["lifelogs"]`) local mapping, counting insertions. -/
def mergeCloud : List (String × J) → Nat → List (String × J) → List (String × J) × Nat
  | acc, n, [] => (acc, n)
  | acc, n, q :: rest =>
    if (acc.map Prod.fst).contains q.1 then mergeCloud acc n rest
    else mergeCloud (acc ++ [q]) (n + 1) rest

/-- Everything observable about one `sync_with_cloud` call: the returned
result dictionary, the data manager state after the call, and the payload
of the `lifelogs:batchAdd` mutation (`none` when no mutation was issued;
entries are recorded with the local key they were selected by). -/
structure SyncOutcome where
  result : SyncResult
  state : MState
  uploaded : Option (List (String × J))

/-- `sync_with_cloud` (src/lifelog/core/data_manager.py lines 418-508).
The two remote calls are modelled by their outcomes `getAll` and
`batchAdd`; an exception from either lands in the final `except` and is
returned as a failure result.  Note the in-place mutation: the records
pulled from the cloud are inserted into the cached document before the
batch-add call, and the file write and metadata update only happen after
it, so a batch-add failure leaves the cache partially updated. -/
def sync_with_cloud (parseTime : String → Option Int) (nowT : Int) (nowS : String)
    (configured : Bool) (getAll : Except String (List (String × J)))
    (batchAdd : Except String Unit) (force : Bool) (st : MState) : SyncOutcome :=
  if configured = false then ⟨.notConfigured, st, none⟩
  else
    let p := load_database nowS st
    let db := p.1
    let st1 := p.2
    match (if force then none else skipCheck parseTime nowT db.meta) with
    | some lastSync => ⟨.skipped lastSync, st1, none⟩
    | none =>
      match getAll with
      | .error e => ⟨.failed e, st1, none⟩
      | .ok cloud_logs =>
        let m := mergeCloud db.lifelogs 0 cloud_logs
        let merged := m.1
        let addedLocal := m.2
        let cloud_ids := cloud_logs.map Prod.fst
        let missing := merged.filter (fun q => !(cloud_ids.contains q.1))
        if missing.isEmpty then
          let db2 : DB :=
            ⟨merged, ⟨some nowS, some nowS, merged.length, merged.map Prod.fst⟩⟩
          ⟨.ok ⟨cloud_logs.length, db.lifelogs.length, addedLocal, 0, merged.length⟩,
           ⟨some db2, some db2⟩, none⟩
        else
          match batchAdd with
          | .error e => ⟨.failed e, ⟨some ⟨merged, db.meta⟩, st1.disk⟩, some missing⟩
          | .ok _ =>
            let db2 : DB :=
              ⟨merged, ⟨some nowS, some nowS, merged.length, merged.map Prod.fst⟩⟩
            ⟨.ok ⟨cloud_logs.length, db.lifelogs.length, addedLocal,
                missing.length, merged.length⟩,
             ⟨some db2, some db2⟩, some missing⟩

/-- C6, counterexample.  With no Convex client configured the returned
dictionary is `{"success": False, "error": "No Convex client
configured"}` — precisely a success=false error result, contradicting
the claim that the not-configured result is not one. -/
theorem c6_counterexample :
    (sync_with_cloud (fun _ => none) 0 "t0" false (.ok []) (.ok ()) false
        ⟨none, none⟩).result = .notConfigured
    ∧ SyncResult.success .notConfigured = false
    ∧ SyncResult.errorMsg .notConfigured = some "No Convex client configured" :=
  ⟨rfl, rfl, rfl⟩

/-- C6, amended.  Whenever no remote store client is configured,
`sync_with_cloud` performs no remote call and no local mutation and
returns the structured result identifying the missing configuration —
which carries success=false and the error string "No Convex client
configured", the same shape as a failure result. -/
theorem c6_not_configured (parseTime : String → Option Int) (nowT : Int)
    (nowS : String) (getAll : Except String (List (String × J)))
    (batchAdd : Except String Unit) (force : Bool) (st : MState) :
    sync_with_cloud parseTime nowT nowS false getAll batchAdd force st
        = ⟨.notConfigured, st, none⟩
    ∧ SyncResult.success .notConfigured = false
    ∧ SyncResult.errorMsg .notConfigured = some "No Convex client configured" :=
  ⟨rfl, rfl, rfl⟩

/-- The freshness rule as the claim states it, in cascade order: due on
an empty store; else due when no sync time is recorded; else due when it
fails to parse; else due exactly when the age strictly exceeds the
threshold. -/
def is_fetch_due_spec (parseTime : String → Option Int) (nowT : Int) (db : DB)
    (thresholdMinutes : Int) : Bool :=
  if db.lifelogs.isEmpty then true
  else
    match db.meta.source_update_time with
    | none => true
    | some s =>
      match parseTime s with
      | none => true
      | some t => decide (nowT - t > thresholdMinutes * 60000000)

/-- C5.  `is_api_call_needed` computes exactly the claimed cascade, for
every parser that rejects the empty string (as `datetime.fromisoformat`
does; the code short-circuits on the falsy empty string before parsing,
the claim files that under an unparseable recorded time). -/
theorem c5_freshness (parseTime : String → Option Int) (nowT : Int) (nowS : String)
    (st : MState) (m : Int) (hp : parseTime "" = none) :
    (is_api_call_needed parseTime nowT nowS st m).1
      = is_fetch_due_spec parseTime nowT (load_database nowS st).1 m := by
  unfold is_api_call_needed is_fetch_due_spec
  cases hL : (load_database nowS st).1.lifelogs.isEmpty
  · simp only [hL, Bool.false_eq_true, if_false]
    cases hsrc : (load_database nowS st).1.meta.source_update_time with
    | none => rfl
    | some s =>
      by_cases hs : s = ""
      · subst hs
        simp [hp]
      · simp [hs]
  · simp [hL]

/-- C5, witness: the freshness cascade evaluated at a concrete store. -/
theorem c5_freshness_witness :
    (is_api_call_needed (fun _ => none) 0 "t0" ⟨none, none⟩ 10).1
      = is_fetch_due_spec (fun _ => none) 0 (load_database "t0" ⟨none, none⟩).1 10 :=
  c5_freshness (fun _ => none) 0 "t0" ⟨none, none⟩ 10 rfl

/-- The derived-metadata invariant of the Store Document: the entry count
and the id list are exactly recomputed from the `lifelogs` mapping. -/
def metaOk (db : DB) : Prop :=
  db.meta.total_entries = db.lifelogs.length
  ∧ db.meta.ids = db.lifelogs.map Prod.fst

/-- C4.  After a non-empty `save_lifelogs`, after `update_local_metadata`,
and after a `sync_with_cloud` run that returns success statistics, the
stored document (cached and persisted alike) has `total_entries` and
`ids` recomputed from the `lifelogs` mapping. -/
theorem c4_derived_metadata :
    (∀ configured batchAdd nowS logs st, logs ≠ [] →
      ∃ db1, save_lifelogs configured batchAdd nowS logs st = ⟨some db1, some db1⟩
        ∧ metaOk db1)
    ∧ (∀ us uc nowS st,
      ∃ db1, update_local_metadata us uc nowS st = ⟨some db1, some db1⟩ ∧ metaOk db1)
    ∧ (∀ parseTime nowT nowS configured getAll batchAdd force st stats,
      (sync_with_cloud parseTime nowT nowS configured getAll batchAdd force st).result
          = .ok stats →
      ∃ db1,
        (sync_with_cloud parseTime nowT nowS configured getAll batchAdd force st).state
            = ⟨some db1, some db1⟩
        ∧ metaOk db1) := by
  refine ⟨?_, ?_, ?_⟩
  · intro configured batchAdd nowS logs st hne
    unfold save_lifelogs
    have hO : logs.isEmpty = false := by
      cases logs with
      | nil => exact absurd rfl hne
      | cons a as => rfl
    rw [hO]
    simp only [Bool.false_eq_true, if_false]
    cases configured
    · exact ⟨_, rfl, rfl, rfl⟩
    · cases batchAdd
      · exact ⟨_, rfl, rfl, rfl⟩
      · exact ⟨_, rfl, rfl, rfl⟩
  · intro us uc nowS st
    exact ⟨_, rfl, rfl, rfl⟩
  · intro parseTime nowT nowS configured getAll batchAdd force st stats h
    unfold sync_with_cloud at h ⊢
    cases configured
    · simp at h
    · simp only [Bool.true_eq_false] at h ⊢
      rw [if_neg (by simp)] at h ⊢
      cases hskip : (if force then none
          else skipCheck parseTime nowT (load_database nowS st).1.meta) with
      | some lastSync =>
        rw [hskip] at h
        simp at h
      | none =>
        rw [hskip] at h
        cases getAll with
        | error e => simp at h
        | ok cloud =>
          by_cases hmiss : ((mergeCloud (load_database nowS st).1.lifelogs 0 cloud).1.filter
              (fun q => !((cloud.map Prod.fst).contains q.1))).isEmpty
          · simp only [hmiss, if_true] at h ⊢
            exact ⟨_, rfl, rfl, rfl⟩
          · simp only [hmiss, Bool.false_eq_true, if_false] at h ⊢
            cases batchAdd with
            | error e => simp at h
            | ok u => exact ⟨_, rfl, rfl, rfl⟩

/-- C4, witness: the three write operations evaluated at concrete inputs. -/
theorem c4_derived_metadata_witness :
    (∃ db1, save_lifelogs false (.ok ()) "t0" [⟨"A", "t", "m", [], none⟩] ⟨none, none⟩
        = ⟨some db1, some db1⟩ ∧ metaOk db1)
    ∧ (∃ db1, update_local_metadata true false "t0" ⟨none, none⟩
        = ⟨some db1, some db1⟩ ∧ metaOk db1)
    ∧ (∃ db1,
        (sync_with_cloud (fun _ => none) 0 "t0" true (.ok []) (.ok ()) true
            ⟨none, none⟩).state = ⟨some db1, some db1⟩
        ∧ metaOk db1) :=
  ⟨c4_derived_metadata.1 false (.ok ()) "t0" [⟨"A", "t", "m", [], none⟩] ⟨none, none⟩
      (by simp),
   c4_derived_metadata.2.1 true false "t0" ⟨none, none⟩,
   c4_derived_metadata.2.2 (fun _ => none) 0 "t0" true (.ok []) (.ok ()) true
      ⟨none, none⟩ ⟨0, 0, 0, 0, 0⟩ rfl⟩

/-- Structure of the cloud-to-local merge: the result extends the local
mapping by a suffix of cloud records, the insertion count is the suffix
length, every appended record's key comes from the cloud, and the key set
of the result is the union of both key sets. -/
theorem mergeCloud_decomp (cloud : List (String × J)) :
    ∀ acc n, ∃ extra,
      (mergeCloud acc n cloud).1 = acc ++ extra
      ∧ (mergeCloud acc n cloud).2 = n + extra.length
      ∧ (∀ q ∈ extra, q.1 ∈ cloud.map Prod.fst)
      ∧ (∀ k, k ∈ (mergeCloud acc n cloud).1.map Prod.fst ↔
          k ∈ acc.map Prod.fst ∨ k ∈ cloud.map Prod.fst) := by
  induction cloud with
  | nil =>
    intro acc n
    exact ⟨[], by simp [mergeCloud], by simp [mergeCloud], by simp,
      fun k => by simp [mergeCloud]⟩
  | cons q rest ih =>
    intro acc n
    by_cases hq : (acc.map Prod.fst).contains q.1 = true
    · have hqm : q.1 ∈ acc.map Prod.fst := by simpa using hq
      have he : mergeCloud acc n (q :: rest) = mergeCloud acc n rest := by
        simp only [mergeCloud]
        rw [if_pos hq]
      obtain ⟨extra, h1, h2, h3, h4⟩ := ih acc n
      refine ⟨extra, by rw [he]; exact h1, by rw [he]; exact h2, ?_, ?_⟩
      · intro p hp
        have := h3 p hp
        simp only [List.map_cons, List.mem_cons]
        exact Or.inr this
      · intro k
        rw [he, h4 k]
        simp only [List.map_cons, List.mem_cons]
        constructor
        · rintro (h | h)
          · exact Or.inl h
          · exact Or.inr (Or.inr h)
        · rintro (h | h | h)
          · exact Or.inl h
          · exact Or.inl (h ▸ hqm)
          · exact Or.inr h
    · have he : mergeCloud acc n (q :: rest) = mergeCloud (acc ++ [q]) (n + 1) rest := by
        simp only [mergeCloud]
        rw [if_neg hq]
      obtain ⟨extra, h1, h2, h3, h4⟩ := ih (acc ++ [q]) (n + 1)
      refine ⟨q :: extra, ?_, ?_, ?_, ?_⟩
      · rw [he, h1]
        simp
      · rw [he, h2]
        simp
        omega
      · intro p hp
        rcases List.mem_cons.mp hp with hp | hp
        · subst hp
          simp
        · have := h3 p hp
          simp only [List.map_cons, List.mem_cons]
          exact Or.inr this
      · intro k
        rw [he, h4 k]
        simp only [List.map_append, List.map_cons, List.mem_append, List.mem_cons,
          List.map_nil, List.mem_singleton, List.not_mem_nil, or_false]
        constructor
        · rintro ((h | h) | h)
          · exact Or.inl h
          · exact Or.inr (Or.inl h)
          · exact Or.inr (Or.inr h)
        · rintro (h | h | h)
          · exact Or.inl (Or.inl h)
          · exact Or.inl (Or.inr h)
          · exact Or.inr h

/-- Counting filtered entries by key only. -/
theorem filter_key_length (p : String → Bool) (l : List (String × J)) :
    (l.filter (fun q => p q.1)).length = ((l.map Prod.fst).filter p).length := by
  induction l with
  | nil => rfl
  | cons q rest ih =>
    by_cases h : p q.1 = true <;> simp [h, ih]

/-- One successful, configured, non-skipped reconciliation run, written
out explicitly: both remote calls succeed, the merged mapping with
recomputed metadata is cached and persisted, and the statistics and
upload payload are as computed by the merge. -/
theorem sync_success_eq (parseTime : String → Option Int) (nowT : Int) (nowS : String)
    (cloud : List (String × J)) (force : Bool) (st : MState)
    (hns : force = true ∨ skipCheck parseTime nowT (load_database nowS st).1.meta = none) :
    sync_with_cloud parseTime nowT nowS true (.ok cloud) (.ok ()) force st =
      ⟨.ok ⟨cloud.length, (load_database nowS st).1.lifelogs.length,
          (mergeCloud (load_database nowS st).1.lifelogs 0 cloud).2,
          ((mergeCloud (load_database nowS st).1.lifelogs 0 cloud).1.filter
            (fun q => !((cloud.map Prod.fst).contains q.1))).length,
          (mergeCloud (load_database nowS st).1.lifelogs 0 cloud).1.length⟩,
       ⟨some ⟨(mergeCloud (load_database nowS st).1.lifelogs 0 cloud).1,
          ⟨some nowS, some nowS,
           (mergeCloud (load_database nowS st).1.lifelogs 0 cloud).1.length,
           (mergeCloud (load_database nowS st).1.lifelogs 0 cloud).1.map Prod.fst⟩⟩,
        some ⟨(mergeCloud (load_database nowS st).1.lifelogs 0 cloud).1,
          ⟨some nowS, some nowS,
           (mergeCloud (load_database nowS st).1.lifelogs 0 cloud).1.length,
           (mergeCloud (load_database nowS st).1.lifelogs 0 cloud).1.map Prod.fst⟩⟩⟩,
       if ((mergeCloud (load_database nowS st).1.lifelogs 0 cloud).1.filter
            (fun q => !((cloud.map Prod.fst).contains q.1))).isEmpty then none
       else some ((mergeCloud (load_database nowS st).1.lifelogs 0 cloud).1.filter
            (fun q => !((cloud.map Prod.fst).contains q.1)))⟩ := by
  have hskip : (if force then none
      else skipCheck parseTime nowT (load_database nowS st).1.meta) = none := by
    rcases hns with h | h
    · rw [h]
      rfl
    · cases force
      · simpa using h
      · rfl
  unfold sync_with_cloud
  rw [if_neg (by simp)]
  dsimp only
  rw [hskip]
  by_cases hmiss : ((mergeCloud (load_database nowS st).1.lifelogs 0 cloud).1.filter
      (fun q => !((cloud.map Prod.fst).contains q.1))).isEmpty
  · rw [if_pos hmiss, if_pos hmiss]
    have h0 : ((mergeCloud (load_database nowS st).1.lifelogs 0 cloud).1.filter
        (fun q => !((cloud.map Prod.fst).contains q.1))).length = 0 := by
      rw [List.isEmpty_iff] at hmiss
      rw [hmiss]
      rfl
    rw [h0]
  · rw [if_neg hmiss, if_neg hmiss]

/-- C3.  One successful, configured, non-skipped reconciliation pass:
the resulting local id set (cached and persisted alike) is the union of
the local and remote id sets, the batch-add payload carries exactly the
local records whose ids the remote lacks — with no mutation issued when
there are none — and both sync timestamps are set to the run's shared
now value. -/
theorem c3_reconciliation (parseTime : String → Option Int) (nowT : Int) (nowS : String)
    (cloud : List (String × J)) (force : Bool) (st : MState)
    (hns : force = true ∨ skipCheck parseTime nowT (load_database nowS st).1.meta = none) :
    ∃ db2 : DB,
      (sync_with_cloud parseTime nowT nowS true (.ok cloud) (.ok ()) force st).state
          = ⟨some db2, some db2⟩
      ∧ (∀ k, k ∈ db2.lifelogs.map Prod.fst ↔
          k ∈ (load_database nowS st).1.lifelogs.map Prod.fst ∨ k ∈ cloud.map Prod.fst)
      ∧ db2.meta.source_update_time = some nowS
      ∧ db2.meta.cloud_update_time = some nowS
      ∧ ((sync_with_cloud parseTime nowT nowS true (.ok cloud) (.ok ()) force st).uploaded
            = none
          ↔ ∀ k, k ∈ (load_database nowS st).1.lifelogs.map Prod.fst →
              k ∈ cloud.map Prod.fst)
      ∧ (∀ up,
          (sync_with_cloud parseTime nowT nowS true (.ok cloud) (.ok ()) force st).uploaded
              = some up →
          (∀ k, k ∈ up.map Prod.fst ↔
             k ∈ (load_database nowS st).1.lifelogs.map Prod.fst
               ∧ ¬ k ∈ cloud.map Prod.fst)
          ∧ ∀ q ∈ up, q ∈ (load_database nowS st).1.lifelogs) := by
  obtain ⟨extra, h1, h2, h3, h4⟩ :=
    mergeCloud_decomp cloud (load_database nowS st).1.lifelogs 0
  rw [sync_success_eq parseTime nowT nowS cloud force st hns]
  refine ⟨_, rfl, h4, rfl, rfl, ?_, ?_⟩
  · constructor
    · intro hnone
      intro k hk
      by_cases hmiss : ((mergeCloud (load_database nowS st).1.lifelogs 0 cloud).1.filter
          (fun q => !((cloud.map Prod.fst).contains q.1))).isEmpty
      · rw [List.isEmpty_iff, List.filter_eq_nil_iff] at hmiss
        have hkm : k ∈ (mergeCloud (load_database nowS st).1.lifelogs 0 cloud).1.map
            Prod.fst := (h4 k).mpr (Or.inl hk)
        obtain ⟨q, hq, hqk⟩ := List.mem_map.mp hkm
        have := hmiss q hq
        simp only [Bool.not_eq_true', Bool.not_eq_false] at this
        rw [← hqk]
        simpa using this
      · rw [if_neg hmiss] at hnone
        cases hnone
    · intro hall
      rw [if_pos ?_]
      rw [List.isEmpty_iff, List.filter_eq_nil_iff]
      intro q hq
      have hqm : q.1 ∈ (mergeCloud (load_database nowS st).1.lifelogs 0 cloud).1.map
          Prod.fst := List.mem_map.mpr ⟨q, hq, rfl⟩
      rcases (h4 q.1).mp hqm with hL | hR
      · have := hall q.1 hL
        simp [this]
      · simp [hR]
  · intro up hup
    by_cases hmiss : ((mergeCloud (load_database nowS st).1.lifelogs 0 cloud).1.filter
        (fun q => !((cloud.map Prod.fst).contains q.1))).isEmpty
    · rw [if_pos hmiss] at hup
      cases hup
    · rw [if_neg hmiss] at hup
      have hupEq : up = (mergeCloud (load_database nowS st).1.lifelogs 0 cloud).1.filter
          (fun q => !((cloud.map Prod.fst).contains q.1)) := by
        cases hup
        rfl
      subst hupEq
      constructor
      · intro k
        constructor
        · intro hk
          obtain ⟨q, hq, hqk⟩ := List.mem_map.mp hk
          rw [List.mem_filter] at hq
          obtain ⟨hqm, hqp⟩ := hq
          have hqp2 : ¬ q.1 ∈ cloud.map Prod.fst := by
            simp only [Bool.not_eq_true'] at hqp
            simpa using hqp
          have hkm : q.1 ∈ (mergeCloud (load_database nowS st).1.lifelogs 0 cloud).1.map
              Prod.fst := List.mem_map.mpr ⟨q, hqm, rfl⟩
          rcases (h4 q.1).mp hkm with hL | hR
          · exact ⟨hqk ▸ hL, hqk ▸ hqp2⟩
          · exact absurd hR hqp2
        · rintro ⟨hkL, hkR⟩
          obtain ⟨q, hq, hqk⟩ := List.mem_map.mp hkL
          refine List.mem_map.mpr ⟨q, List.mem_filter.mpr ⟨?_, ?_⟩, hqk⟩
          · rw [h1]
            exact List.mem_append.mpr (Or.inl hq)
          · have hn : ¬ q.1 ∈ cloud.map Prod.fst := by
              rw [hqk]
              exact hkR
            simpa using hn
      · intro q hq
        rw [List.mem_filter] at hq
        obtain ⟨hqm, hqp⟩ := hq
        have hqp2 : ¬ q.1 ∈ cloud.map Prod.fst := by
          simp only [Bool.not_eq_true'] at hqp
          simpa using hqp
        rw [h1] at hqm
        rcases List.mem_append.mp hqm with hL | hE
        · exact hL
        · exact absurd (h3 q hE) hqp2

/-- C10.  The statistics of a successful, non-skipped run are internally
consistent: the after-count is the before-count plus the number of
records pulled from the cloud (duplicate remote ids are inserted and
counted only once), and `added_to_cloud` counts exactly the local ids
absent from the remote id set (0 when there are none). -/
theorem c10_stats_consistency (parseTime : String → Option Int) (nowT : Int)
    (nowS : String) (cloud : List (String × J)) (force : Bool) (st : MState)
    (hns : force = true ∨ skipCheck parseTime nowT (load_database nowS st).1.meta = none) :
    ∃ stats : SyncStats,
      (sync_with_cloud parseTime nowT nowS true (.ok cloud) (.ok ()) force st).result
          = .ok stats
      ∧ stats.local_count_after = stats.local_count_before + stats.added_to_local
      ∧ stats.added_to_cloud
          = (((load_database nowS st).1.lifelogs.map Prod.fst).filter
              (fun k => !((cloud.map Prod.fst).contains k))).length := by
  obtain ⟨extra, h1, h2, h3, h4⟩ :=
    mergeCloud_decomp cloud (load_database nowS st).1.lifelogs 0
  rw [sync_success_eq parseTime nowT nowS cloud force st hns]
  refine ⟨_, rfl, ?_, ?_⟩
  · rw [h1, h2]
    simp
  · dsimp only
    rw [h1, List.filter_append]
    have hex : extra.filter (fun q => !((cloud.map Prod.fst).contains q.1)) = [] := by
      rw [List.filter_eq_nil_iff]
      intro q hq
      have := h3 q hq
      simp [this]
    rw [hex, List.append_nil]
    exact filter_key_length (fun k => !((cloud.map Prod.fst).contains k))
      (load_database nowS st).1.lifelogs

/-- C3 and C10 share this witness shape; a concrete run for C3: local
store `{B}`, remote `{B, C}`. -/
def c3Db : DB := ⟨[("B", J.null)], ⟨some "t0", none, 1, ["B"]⟩⟩

/-- C3, witness: a concrete forced run with local `{B}` and remote
`{B, C}`. -/
theorem c3_reconciliation_witness :
    ∃ db2 : DB,
      (sync_with_cloud (fun _ => none) 0 "t1" true (.ok [("B", J.null), ("C", J.null)])
          (.ok ()) true ⟨some c3Db, some c3Db⟩).state = ⟨some db2, some db2⟩
      ∧ (∀ k, k ∈ db2.lifelogs.map Prod.fst ↔
          k ∈ (load_database "t1" ⟨some c3Db, some c3Db⟩).1.lifelogs.map Prod.fst
            ∨ k ∈ [("B", J.null), ("C", J.null)].map Prod.fst)
      ∧ db2.meta.source_update_time = some "t1"
      ∧ db2.meta.cloud_update_time = some "t1"
      ∧ ((sync_with_cloud (fun _ => none) 0 "t1" true (.ok [("B", J.null), ("C", J.null)])
            (.ok ()) true ⟨some c3Db, some c3Db⟩).uploaded = none
          ↔ ∀ k, k ∈ (load_database "t1" ⟨some c3Db, some c3Db⟩).1.lifelogs.map Prod.fst →
              k ∈ [("B", J.null), ("C", J.null)].map Prod.fst)
      ∧ (∀ up,
          (sync_with_cloud (fun _ => none) 0 "t1" true (.ok [("B", J.null), ("C", J.null)])
              (.ok ()) true ⟨some c3Db, some c3Db⟩).uploaded = some up →
          (∀ k, k ∈ up.map Prod.fst ↔
             k ∈ (load_database "t1" ⟨some c3Db, some c3Db⟩).1.lifelogs.map Prod.fst
               ∧ ¬ k ∈ [("B", J.null), ("C", J.null)].map Prod.fst)
          ∧ ∀ q ∈ up, q ∈ (load_database "t1" ⟨some c3Db, some c3Db⟩).1.lifelogs) :=
  c3_reconciliation (fun _ => none) 0 "t1" [("B", J.null), ("C", J.null)] true
    ⟨some c3Db, some c3Db⟩ (Or.inl rfl)

/-- C10, witness: the statistics identities for a concrete run where the
remote list holds a duplicate id. -/
theorem c10_stats_consistency_witness :
    ∃ stats : SyncStats,
      (sync_with_cloud (fun _ => none) 0 "t1" true
          (.ok [("C", J.null), ("C", J.null)]) (.ok ()) true
          ⟨some c3Db, some c3Db⟩).result = .ok stats
      ∧ stats.local_count_after = stats.local_count_before + stats.added_to_local
      ∧ stats.added_to_cloud
          = (((load_database "t1" ⟨some c3Db, some c3Db⟩).1.lifelogs.map Prod.fst).filter
              (fun k => !(([("C", J.null), ("C", J.null)].map Prod.fst).contains k))).length :=
  c10_stats_consistency (fun _ => none) 0 "t1" [("C", J.null), ("C", J.null)] true
    ⟨some c3Db, some c3Db⟩ (Or.inl rfl)

/-- A one-record local store (`{A}`), cached and persisted. -/
def c1Db : DB := ⟨[("A", J.null)], ⟨some "t0", none, 1, ["A"]⟩⟩

/-- A forced sync against remote `{C}` in which the bulk read succeeds
and the batch-add mutation raises. -/
def c1Out : SyncOutcome :=
  sync_with_cloud (fun _ => none) 0 "t1" true (.ok [("C", J.null)]) (.error "boom")
    true ⟨some c1Db, some c1Db⟩

/-- C1, counterexample.  When the batch-add raises after the bulk read
succeeded, `sync_with_cloud` does return a structured failure and leaves
the persisted document untouched — but the in-memory cached document is
not what it was before the attempt: the remote record `C` has already
been merged into the cached mapping (`["A"]` grew to `["A", "C"]`),
refuting the no-partial-update clause for the cache. -/
theorem c1_counterexample :
    c1Out.result = .failed "boom"
    ∧ c1Out.state.disk = some c1Db
    ∧ Option.map (fun db => db.lifelogs.map Prod.fst) c1Out.state.cache
        = some ["A", "C"]
    ∧ (⟨some c1Db, some c1Db⟩ : MState).cache = some c1Db
    ∧ c1Db.lifelogs.map Prod.fst = ["A"] :=
  ⟨rfl, rfl, rfl, rfl, rfl⟩

/-- C1, amended.  Any remote-call failure in a configured, non-skipped
run yields a structured failure result (success=false with the raised
reason), the persisted document — records and metadata — is exactly as
before, and the stored metadata is never partially updated.  When the
bulk read itself fails, the cached document is also unchanged (the run
leaves the state exactly as the initial metadata load produced it);
when the batch-add fails, the cached metadata is unchanged but the
cached record mapping has already received the remote records merged in
before the call.  The third part records that the initial load keeps the
disk untouched and preserves an existing cached document. -/
theorem c1_failure_isolation :
    (∀ (parseTime : String → Option Int) (nowT : Int) (nowS : String) (e : String)
        (batchAdd : Except String Unit) (force : Bool) (st : MState),
      (force = true ∨ skipCheck parseTime nowT (load_database nowS st).1.meta = none) →
      sync_with_cloud parseTime nowT nowS true (.error e) batchAdd force st
        = ⟨.failed e, (load_database nowS st).2, none⟩)
    ∧ (∀ (parseTime : String → Option Int) (nowT : Int) (nowS : String)
        (cloud : List (String × J)) (e : String) (force : Bool) (st : MState),
      (force = true ∨ skipCheck parseTime nowT (load_database nowS st).1.meta = none) →
      ((mergeCloud (load_database nowS st).1.lifelogs 0 cloud).1.filter
          (fun q => !((cloud.map Prod.fst).contains q.1))) ≠ [] →
      sync_with_cloud parseTime nowT nowS true (.ok cloud) (.error e) force st
        = ⟨.failed e,
           ⟨some ⟨(mergeCloud (load_database nowS st).1.lifelogs 0 cloud).1,
              (load_database nowS st).1.meta⟩,
            st.disk⟩,
           some ((mergeCloud (load_database nowS st).1.lifelogs 0 cloud).1.filter
              (fun q => !((cloud.map Prod.fst).contains q.1)))⟩)
    ∧ (∀ (nowS : String) (st : MState),
      (load_database nowS st).2.disk = st.disk
      ∧ (∀ db, st.cache = some db → (load_database nowS st).2.cache = some db)) := by
  have hload : ∀ (nowS : String) (st : MState), (load_database nowS st).2.disk = st.disk := by
    intro nowS st
    unfold load_database
    cases st with
    | mk c d =>
      cases c
      · cases d <;> rfl
      · rfl
  refine ⟨?_, ?_, ?_⟩
  · intro parseTime nowT nowS e batchAdd force st hns
    have hskip : (if force then none
        else skipCheck parseTime nowT (load_database nowS st).1.meta) = none := by
      rcases hns with h | h
      · rw [h]
        rfl
      · cases force
        · simpa using h
        · rfl
    unfold sync_with_cloud
    rw [if_neg (by simp)]
    dsimp only
    rw [hskip]
  · intro parseTime nowT nowS cloud e force st hns hne
    have hskip : (if force then none
        else skipCheck parseTime nowT (load_database nowS st).1.meta) = none := by
      rcases hns with h | h
      · rw [h]
        rfl
      · cases force
        · simpa using h
        · rfl
    have hmiss : ((mergeCloud (load_database nowS st).1.lifelogs 0 cloud).1.filter
        (fun q => !((cloud.map Prod.fst).contains q.1))).isEmpty = false := by
      cases hl : ((mergeCloud (load_database nowS st).1.lifelogs 0 cloud).1.filter
          (fun q => !((cloud.map Prod.fst).contains q.1))) with
      | nil => exact absurd hl hne
      | cons a as => rfl
    unfold sync_with_cloud
    rw [if_neg (by simp)]
    dsimp only
    rw [hskip]
    rw [if_neg (by rw [hmiss]; simp)]
    rw [hload nowS st]
  · intro nowS st
    refine ⟨hload nowS st, ?_⟩
    intro db hdb
    unfold load_database
    rw [hdb]
    exact hdb

/-- C1, witness: both failure modes and the load-preservation fact at a
concrete store. -/
theorem c1_failure_isolation_witness :
    (sync_with_cloud (fun _ => none) 0 "t1" true (.error "down") (.ok ()) true
        ⟨some c1Db, some c1Db⟩
      = ⟨.failed "down", (load_database "t1" ⟨some c1Db, some c1Db⟩).2, none⟩)
    ∧ (sync_with_cloud (fun _ => none) 0 "t1" true (.ok [("C", J.null)]) (.error "boom")
        true ⟨some c1Db, some c1Db⟩
      = ⟨.failed "boom",
         ⟨some ⟨(mergeCloud (load_database "t1" ⟨some c1Db, some c1Db⟩).1.lifelogs 0
              [("C", J.null)]).1,
            (load_database "t1" ⟨some c1Db, some c1Db⟩).1.meta⟩,
          (⟨some c1Db, some c1Db⟩ : MState).disk⟩,
         some ((mergeCloud (load_database "t1" ⟨some c1Db, some c1Db⟩).1.lifelogs 0
              [("C", J.null)]).1.filter
            (fun q => !(([("C", J.null)].map Prod.fst).contains q.1)))⟩)
    ∧ (load_database "t1" ⟨some c1Db, some c1Db⟩).2.disk
        = (⟨some c1Db, some c1Db⟩ : MState).disk
    ∧ (load_database "t1" ⟨some c1Db, some c1Db⟩).2.cache = some c1Db :=
  ⟨c1_failure_isolation.1 (fun _ => none) 0 "t1" "down" (.ok ()) true
      ⟨some c1Db, some c1Db⟩ (Or.inl rfl),
   c1_failure_isolation.2.1 (fun _ => none) 0 "t1" [("C", J.null)] "boom" true
      ⟨some c1Db, some c1Db⟩ (Or.inl rfl)
      (by
        have h : (mergeCloud (load_database "t1"
              (⟨some c1Db, some c1Db⟩ : MState)).1.lifelogs 0 [("C", J.null)]).1.filter
            (fun q => !(([("C", J.null)].map Prod.fst).contains q.1))
            = [("A", J.null)] := rfl
        rw [h]
        exact List.cons_ne_nil _ _),
   (c1_failure_isolation.2.2 "t1" ⟨some c1Db, some c1Db⟩).1,
   (c1_failure_isolation.2.2 "t1" ⟨some c1Db, some c1Db⟩).2 c1Db rfl⟩

/-- Any ascending `get_lifelogs` result is sorted by `sortKey`. -/
theorem get_lifelogs_sorted_asc (db : DB) (limit : Option Int)
    (startT endT : Option Int) (out : List Lifelog)
    (h : get_lifelogs db limit false startT endT = some out) :
    out.Pairwise (fun a b => sortKey a ≤ sortKey b) := by
  unfold get_lifelogs at h
  cases hp : parseAll (db.lifelogs.map Prod.snd) with
  | none => rw [hp] at h; cases h
  | some logs =>
    rw [hp] at h
    dsimp only at h
    have hsort : ((if startT.isSome || endT.isSome then
          logs.filter (fun l =>
            match l.timestamp with
            | none => false
            | some ts => keepLog startT endT ts)
        else logs).mergeSort (fun a b => decide (sortKey a ≤ sortKey b))).Pairwise
          (fun a b => sortKey a ≤ sortKey b) := by
      have hs := @List.sorted_mergeSort Lifelog
        (fun a b => decide (sortKey a ≤ sortKey b))
        (fun a b c hab hbc => by
          simp only [decide_eq_true_eq] at hab hbc ⊢
          omega)
        (fun a b => by
          simp only [Bool.or_eq_true, decide_eq_true_eq]
          omega)
        (if startT.isSome || endT.isSome then
          logs.filter (fun l =>
            match l.timestamp with
            | none => false
            | some ts => keepLog startT endT ts)
        else logs)
      exact hs.imp (fun hab => by simpa using hab)
    cases limit with
    | none =>
      have := Option.some.inj h
      rw [← this]
      exact hsort
    | some n =>
      dsimp only at h
      by_cases hn : n > 0
      · rw [if_pos hn] at h
        have := Option.some.inj h
        rw [← this]
        exact List.Pairwise.sublist (List.take_sublist _ _) hsort
      · rw [if_neg hn] at h
        have := Option.some.inj h
        rw [← this]
        exact hsort

/-- Any descending `get_lifelogs` result is sorted by reverse `sortKey`. -/
theorem get_lifelogs_sorted_desc (db : DB) (limit : Option Int)
    (startT endT : Option Int) (out : List Lifelog)
    (h : get_lifelogs db limit true startT endT = some out) :
    out.Pairwise (fun a b => sortKey b ≤ sortKey a) := by
  unfold get_lifelogs at h
  cases hp : parseAll (db.lifelogs.map Prod.snd) with
  | none => rw [hp] at h; cases h
  | some logs =>
    rw [hp] at h
    dsimp only at h
    have hsort : ((if startT.isSome || endT.isSome then
          logs.filter (fun l =>
            match l.timestamp with
            | none => false
            | some ts => keepLog startT endT ts)
        else logs).mergeSort (fun a b => decide (sortKey b ≤ sortKey a))).Pairwise
          (fun a b => sortKey b ≤ sortKey a) := by
      have hs := @List.sorted_mergeSort Lifelog
        (fun a b => decide (sortKey b ≤ sortKey a))
        (fun a b c hab hbc => by
          simp only [decide_eq_true_eq] at hab hbc ⊢
          omega)
        (fun a b => by
          simp only [Bool.or_eq_true, decide_eq_true_eq]
          omega)
        (if startT.isSome || endT.isSome then
          logs.filter (fun l =>
            match l.timestamp with
            | none => false
            | some ts => keepLog startT endT ts)
        else logs)
      exact hs.imp (fun hab => by simpa using hab)
    cases limit with
    | none =>
      have := Option.some.inj h
      rw [← this]
      exact hsort
    | some n =>
      dsimp only at h
      by_cases hn : n > 0
      · rw [if_pos hn] at h
        have := Option.some.inj h
        rw [← this]
        exact List.Pairwise.sublist (List.take_sublist _ _) hsort
      · rw [if_neg hn] at h
        have := Option.some.inj h
        rw [← this]
        exact hsort

/-- C7, amended.  `get_lifelogs` sorts a record lacking a timestamp with
key 0: under ascending order it precedes every record whose timestamp is
strictly positive, and under descending order it follows every such
record.  (It does not sort below records with timestamp 0 — which tie —
or with negative timestamps, so "lowest possible value" does not hold.) -/
theorem c7_missing_timestamp_key_zero :
    (∀ (db : DB) (limit : Option Int) (startT endT : Option Int) (out : List Lifelog),
      get_lifelogs db limit false startT endT = some out →
      ∀ (i j : Nat) (hi : i < out.length) (hj : j < out.length),
        (out[i]).timestamp = none →
        (∃ t, (out[j]).timestamp = some t ∧ 0 < t) →
        i < j)
    ∧ (∀ (db : DB) (limit : Option Int) (startT endT : Option Int) (out : List Lifelog),
      get_lifelogs db limit true startT endT = some out →
      ∀ (i j : Nat) (hi : i < out.length) (hj : j < out.length),
        (out[i]).timestamp = none →
        (∃ t, (out[j]).timestamp = some t ∧ 0 < t) →
        j < i) := by
  constructor
  · intro db limit startT endT out h i j hi hj hnone hpos
    obtain ⟨t, ht, htpos⟩ := hpos
    have hpw := get_lifelogs_sorted_asc db limit startT endT out h
    rw [List.pairwise_iff_getElem] at hpw
    have hki : sortKey out[i] = 0 := by simp [sortKey, hnone]
    have hkj : sortKey out[j] = t := by simp [sortKey, ht]
    rcases Nat.lt_trichotomy i j with hlt | heq | hgt
    · exact hlt
    · subst heq
      rw [hnone] at ht
      cases ht
    · have := hpw j i hj hi hgt
      rw [hki, hkj] at this
      omega
  · intro db limit startT endT out h i j hi hj hnone hpos
    obtain ⟨t, ht, htpos⟩ := hpos
    have hpw := get_lifelogs_sorted_desc db limit startT endT out h
    rw [List.pairwise_iff_getElem] at hpw
    have hki : sortKey out[i] = 0 := by simp [sortKey, hnone]
    have hkj : sortKey out[j] = t := by simp [sortKey, ht]
    rcases Nat.lt_trichotomy j i with hlt | heq | hgt
    · exact hlt
    · subst heq
      rw [hnone] at ht
      cases ht
    · have := hpw i j hi hj hgt
      rw [hki, hkj] at this
      omega

/-- A record whose timestamp is 0 — legal, falsy in Python, key 0. -/
def c7LogA : Lifelog := ⟨"A", "", "", [], some 0⟩

/-- A record with no timestamp — key 0 as well. -/
def c7LogB : Lifelog := ⟨"B", "", "", [], none⟩

/-- A record with a positive timestamp. -/
def c7LogP : Lifelog := ⟨"P", "", "", [], some 5⟩

/-- A store holding a zero-timestamp record before a missing-timestamp
record. -/
def c7Db : DB :=
  ⟨[("A", lifelog_to_dict c7LogA), ("B", lifelog_to_dict c7LogB)],
   ⟨some "t0", none, 2, ["A", "B"]⟩⟩

/-- A store holding a missing-timestamp record before a positive one. -/
def c7DbW : DB :=
  ⟨[("B", lifelog_to_dict c7LogB), ("P", lifelog_to_dict c7LogP)],
   ⟨some "t0", none, 2, ["B", "P"]⟩⟩

/-- C7, counterexample.  Under ascending order the stable sort keeps the
zero-timestamp record `A` before the timestamp-less record `B` (both
have key 0), so a record lacking a timestamp does not precede every
record that has one — it is not "the lowest possible value". -/
theorem c7_counterexample :
    get_lifelogs c7Db none false none none = some [c7LogA, c7LogB]
    ∧ c7LogA.timestamp = some 0
    ∧ c7LogB.timestamp = none := by
  refine ⟨?_, rfl, rfl⟩
  unfold get_lifelogs
  have hp : parseAll (c7Db.lifelogs.map Prod.snd) = some [c7LogA, c7LogB] := by
    simp [c7Db, c7LogA, c7LogB, parseAll, Schemas.dict_to_lifelog,
      Schemas.lifelog_to_dict, Schemas.content_items_to_dict,
      Schemas.dict_to_content_items, Schemas.tsWire, Schemas.lookup,
      Schemas.getInt, List.find?]
  rw [hp]
  dsimp only
  rw [if_neg (by simp), if_neg (by simp)]
  have hsorted : [c7LogA, c7LogB].mergeSort
      (fun a b => decide (sortKey a ≤ sortKey b)) = [c7LogA, c7LogB] := by
    apply List.mergeSort_of_sorted
    simp [List.pairwise_cons, sortKey, c7LogA, c7LogB]
  rw [hsorted]

/-- C7, witness: the amended ordering applied to a concrete store with a
missing-timestamp record and a positive-timestamp record. -/
theorem c7_missing_timestamp_key_zero_witness :
    get_lifelogs c7DbW none false none none = some [c7LogB, c7LogP]
    ∧ ([c7LogB, c7LogP].get ⟨0, by decide⟩).timestamp = none
    ∧ (∃ t, ([c7LogB, c7LogP].get ⟨1, by decide⟩).timestamp = some t ∧ 0 < t)
    ∧ 0 < 1 := by
  have heval : get_lifelogs c7DbW none false none none = some [c7LogB, c7LogP] := by
    unfold get_lifelogs
    have hp : parseAll (c7DbW.lifelogs.map Prod.snd) = some [c7LogB, c7LogP] := by
      simp [c7DbW, c7LogB, c7LogP, parseAll, Schemas.dict_to_lifelog,
        Schemas.lifelog_to_dict, Schemas.content_items_to_dict,
        Schemas.dict_to_content_items, Schemas.tsWire, Schemas.lookup,
        Schemas.getInt, List.find?]
    rw [hp]
    dsimp only
    rw [if_neg (by simp), if_neg (by simp)]
    have hsorted : [c7LogB, c7LogP].mergeSort
        (fun a b => decide (sortKey a ≤ sortKey b)) = [c7LogB, c7LogP] := by
      apply List.mergeSort_of_sorted
      simp [List.pairwise_cons, sortKey, c7LogB, c7LogP]
    rw [hsorted]
  refine ⟨heval, rfl, ⟨5, rfl, by decide⟩, ?_⟩
  exact c7_missing_timestamp_key_zero.1 c7DbW none none none [c7LogB, c7LogP] heval
    0 1 (by decide) (by decide) rfl ⟨5, rfl, by decide⟩

end DataManager

namespace ApiClient

open Schemas

/-- One HTTP response of the paginated lifelog endpoint: the batch at
`data.lifelogs` and the cursor at `meta.lifelogs.nextCursor`. -/
structure ApiResponse where
  lifelogs : List J
  nextCursor : Option String

/-- Cursor truthiness: `if not next_cursor` treats both a missing cursor
and an empty string as terminal. -/
def cursorOk : Option String → Bool
  | some c => !(c == "")
  | none => false

/-- The `while True` body of `LifelogAPIClient.get_lifelogs`
(src/lifelog/core/api_client.py lines 52-93): accumulate the batch;
return the accumulation truncated to `limit` once it reaches `limit`;
otherwise stop when the response has no usable cursor or the batch was
short, else continue with the next response.  An exhausted response list
stands for a server that answers with an empty batch and no cursor,
which terminates the loop identically. -/
def fetchLoop (limit batchSize : Nat) : List J → List ApiResponse → List J
  | acc, [] => acc
  | acc, r :: rest =>
    if (acc ++ r.lifelogs).length ≥ limit then (acc ++ r.lifelogs).take limit
    else if !(cursorOk r.nextCursor) || decide (r.lifelogs.length < batchSize) then
      acc ++ r.lifelogs
    else fetchLoop limit batchSize (acc ++ r.lifelogs) rest

/-- `LifelogAPIClient.get_lifelogs` with a caller-supplied limit: the
batch size is clamped to the limit up front (`batch_size =
min(batch_size, limit)`), then the loop runs from an empty accumulator. -/
def get_lifelogs (limit batchSize : Nat) (responses : List ApiResponse) : List J :=
  fetchLoop limit (min batchSize limit) [] responses

/-- The loop never grows past `max` of its starting size and the limit. -/
theorem fetchLoop_length_le (limit batchSize : Nat) :
    ∀ (responses : List ApiResponse) (acc : List J),
      (fetchLoop limit batchSize acc responses).length ≤ max acc.length limit := by
  intro responses
  induction responses with
  | nil =>
    intro acc
    exact Nat.le_max_left _ _
  | cons r rest ih =>
    intro acc
    unfold fetchLoop
    by_cases hge : (acc ++ r.lifelogs).length ≥ limit
    · rw [if_pos hge]
      have h1 : ((acc ++ r.lifelogs).take limit).length ≤ limit := by
        rw [List.length_take]
        exact Nat.min_le_left _ _
      exact le_trans h1 (Nat.le_max_right _ _)
    · rw [if_neg hge]
      have hlt : (acc ++ r.lifelogs).length ≤ limit :=
        Nat.le_of_lt (Nat.lt_of_not_le hge)
      by_cases hbrk : (!(cursorOk r.nextCursor)
          || decide (r.lifelogs.length < batchSize)) = true
      · rw [if_pos hbrk]
        exact le_trans hlt (Nat.le_max_right _ _)
      · rw [if_neg hbrk]
        have h2 := ih (acc ++ r.lifelogs)
        rw [Nat.max_eq_right hlt] at h2
        exact le_trans h2 (Nat.le_max_right _ _)

/-- The loop only ever returns an in-order prefix of what the server
sent after the accumulator. -/
theorem fetchLoop_prefix (limit batchSize : Nat) :
    ∀ (responses : List ApiResponse) (acc : List J),
      fetchLoop limit batchSize acc responses
        <+: acc ++ (responses.map (fun r => r.lifelogs)).join := by
  intro responses
  induction responses with
  | nil =>
    intro acc
    simp [fetchLoop]
  | cons r rest ih =>
    intro acc
    unfold fetchLoop
    have hassoc : acc ++ (((r :: rest).map (fun r => r.lifelogs)).join)
        = (acc ++ r.lifelogs) ++ ((rest.map (fun r => r.lifelogs)).join) := by
      simp
    rw [hassoc]
    by_cases hge : (acc ++ r.lifelogs).length ≥ limit
    · rw [if_pos hge]
      exact (List.take_prefix _ _).trans (List.prefix_append _ _)
    · rw [if_neg hge]
      by_cases hbrk : (!(cursorOk r.nextCursor)
          || decide (r.lifelogs.length < batchSize)) = true
      · rw [if_pos hbrk]
        exact List.prefix_append _ _
      · rw [if_neg hbrk]
        exact ih (acc ++ r.lifelogs)

/-- C9.  For every sequence of response batches, the paginated fetch
returns an in-order prefix of the concatenated batches, never more than
`limit` entries, and when a response pushes the accumulation to `limit`
or beyond the result is truncated to exactly `limit` entries. -/
theorem c9_pagination (limit batchSize : Nat) (responses : List ApiResponse) :
    (get_lifelogs limit batchSize responses).length ≤ limit
    ∧ get_lifelogs limit batchSize responses
        <+: (responses.map (fun r => r.lifelogs)).join
    ∧ (∀ (r : ApiResponse) (rest : List ApiResponse),
        limit ≤ r.lifelogs.length →
        (get_lifelogs limit batchSize (r :: rest)).length = limit) := by
  refine ⟨?_, ?_, ?_⟩
  · have h := fetchLoop_length_le limit (min batchSize limit) responses []
    simpa using h
  · have h := fetchLoop_prefix limit (min batchSize limit) responses []
    simpa using h
  · intro r rest hr
    unfold get_lifelogs fetchLoop
    rw [if_pos (by simpa using hr)]
    rw [List.length_take]
    simpa using hr

/-- C9, witness: the exact-truncation clause at a concrete response. -/
theorem c9_pagination_witness :
    (2 : Nat) ≤ [J.null, J.null, J.null].length
    ∧ (get_lifelogs 2 10 [⟨[J.null, J.null, J.null], none⟩]).length = 2 :=
  ⟨by decide,
   (c9_pagination 2 10 [⟨[J.null, J.null, J.null], none⟩]).2.2
     ⟨[J.null, J.null, J.null], none⟩ [] (by decide)⟩

end ApiClient

namespace Hashing

/-- Modelled from the spec: the Identity/Hashing component (spec 4.4) is
not present under src/ (no hashing code exists in the repository's
Python sources); this namespace models it from the spec's words.  A
record on the legacy ingestion path carries an optional source id, an
optional timestamp, and content. -/
structure RawRecord where
  id : Option String
  timestamp : Option Int
  content : String

/-- A length-coded magnitude rendering. -/
def repChars (n : Nat) : String := String.mk (List.replicate n 'x')

/-- An injective rendering of an integer (sign tag plus a length-coded
magnitude), standing for the decimal rendering fed to the hash; only its
injectivity matters to the claims. -/
def intStr (n : Int) : String :=
  if n < 0 then "-" ++ repChars (-n).toNat
  else "+" ++ repChars n.toNat

/-- Modelled from the spec: a cryptographic-strength digest.  The spec
asserts collision resistance ("differs for two records with different
pairs"), so the model keeps the digest injective by construction. -/
def digest (s : String) : String := "sha256:" ++ s

/-- Modelled from the spec: derive an identifier — a source-supplied id
is used verbatim and never rehashed; otherwise hash over the present
subset of `{id, timestamp}` (with id absent that is the timestamp); when
both are absent, hash over `{content, current wall-clock time}`. -/
def deriveId (now : String) (r : RawRecord) : String :=
  match r.id with
  | some i => i
  | none =>
    match r.timestamp with
    | some ts => digest ("timestamp=" ++ intStr ts)
    | none => digest ("content=" ++ r.content ++ "|now=" ++ now)

theorem repChars_inj {m n : Nat} (h : repChars m = repChars n) : m = n := by
  have hd := congrArg String.data h
  rw [show (repChars m).data = List.replicate m 'x' from rfl,
      show (repChars n).data = List.replicate n 'x' from rfl] at hd
  have h2 := congrArg List.length hd
  simpa using h2

theorem intStr_inj {a b : Int} (h : intStr a = intStr b) : a = b := by
  unfold intStr at h
  by_cases ha : a < 0 <;> by_cases hb : b < 0
  · rw [if_pos ha, if_pos hb] at h
    have hd := congrArg String.data h
    simp only [String.data_append] at hd
    have h2 := repChars_inj (String.ext (List.append_cancel_left hd))
    omega
  · rw [if_pos ha, if_neg hb] at h
    have hd := congrArg String.data h
    simp only [String.data_append] at hd
    simp at hd
  · rw [if_neg ha, if_pos hb] at h
    have hd := congrArg String.data h
    simp only [String.data_append] at hd
    simp at hd
  · rw [if_neg ha, if_neg hb] at h
    have hd := congrArg String.data h
    simp only [String.data_append] at hd
    have h2 := repChars_inj (String.ext (List.append_cancel_left hd))
    omega

theorem digest_inj {s t : String} (h : digest s = digest t) : s = t := by
  unfold digest at h
  have hd := congrArg String.data h
  simp only [String.data_append] at hd
  exact String.ext (List.append_cancel_left hd)

/-- The two hash-input tags never collide. -/
theorem tsTag_ne_contentTag (x y : String) :
    ("timestamp=" ++ x) ≠ ("content=" ++ y) := by
  intro h
  have hd := congrArg String.data h
  simp only [String.data_append] at hd
  simp at hd

/-- C8, counterexample.  A source-supplied id is used verbatim, so two
records sharing an id but differing in timestamp have different
`{id, timestamp}` pairs yet identical identifiers — the distinctness
clause cannot hold together with the verbatim clause. -/
theorem c8_counterexample :
    deriveId "now" ⟨some "x", some 1, ""⟩ = deriveId "now" ⟨some "x", some 2, ""⟩
    ∧ ((some "x", some 1) : Option String × Option Int) ≠ (some "x", some 2) :=
  ⟨rfl, by simp⟩

/-- C8, amended.  The identifier is a deterministic hash of the present
subset of `{id, timestamp}`, falling back to `{content, wall-clock}`
when both are absent; two calls on the same record agree; a
source-supplied id is used verbatim and never rehashed; and for the
records the hashing actually applies to — those arriving without an id —
records with different `{id, timestamp}` pairs (i.e. different
timestamps) receive different identifiers. -/
theorem c8_hash_determinism :
    (∀ (now : String) (r : RawRecord) (i : String), r.id = some i → deriveId now r = i)
    ∧ (∀ (now : String) (r : RawRecord), deriveId now r = deriveId now r)
    ∧ (∀ (now1 now2 : String) (r1 r2 : RawRecord), r1.id = none → r2.id = none →
        r1.timestamp ≠ r2.timestamp → deriveId now1 r1 ≠ deriveId now2 r2) := by
  refine ⟨?_, fun _ _ => rfl, ?_⟩
  · intro now r i hi
    unfold deriveId
    rw [hi]
  · intro now1 now2 r1 r2 h1 h2 hts h
    unfold deriveId at h
    rw [h1, h2] at h
    cases ht1 : r1.timestamp with
    | some ts1 =>
      cases ht2 : r2.timestamp with
      | some ts2 =>
        rw [ht1, ht2] at h
        have hstr := digest_inj h
        have hint : intStr ts1 = intStr ts2 := by
          have hd := congrArg String.data hstr
          simp only [String.data_append] at hd
          exact String.ext (List.append_cancel_left hd)
        have := intStr_inj hint
        exact hts (by rw [ht1, ht2, this])
      | none =>
        rw [ht1, ht2] at h
        exact tsTag_ne_contentTag _ _ (digest_inj h)
    | none =>
      cases ht2 : r2.timestamp with
      | some ts2 =>
        rw [ht1, ht2] at h
        exact tsTag_ne_contentTag _ _ (digest_inj h.symm)
      | none =>
        rw [ht1, ht2] at hts
        exact hts rfl

/-- C8, witness: verbatim id use and hashed distinctness at concrete
records. -/
theorem c8_hash_determinism_witness :
    deriveId "now" ⟨some "x", some 7, "c"⟩ = "x"
    ∧ deriveId "n1" ⟨none, some 1, "c"⟩ ≠ deriveId "n2" ⟨none, some 2, "c"⟩ :=
  ⟨c8_hash_determinism.1 "now" ⟨some "x", some 7, "c"⟩ "x" rfl,
   c8_hash_determinism.2.2 "n1" "n2" ⟨none, some 1, "c"⟩ ⟨none, some 2, "c"⟩
     rfl rfl (by simp)⟩

end Hashing
